import Mathlib

/-!
Shallow embedding of `src/app.py` (Th1sMaxOn/flask_lab2): an in-memory
expenses API with three tables (users, categories, records) and per-kind
id counters, plus the HTTP handlers operating on them.

Modelling conventions, matching Python/Flask semantics:
* JSON values are the inductive `Json`.  Python `bool` is a subclass of
  `int` (`True == 1`, `isinstance(True, int)` is `True`), so the
  `isinstance(x, int)` checks of the source accept booleans and the code
  observes only their integer value; the embedding's `jOptAsInt`
  normalises accordingly.
* Python dicts preserve insertion order; they are modelled as
  association lists (`Dict`), with dict assignment updating in place or
  appending, `pop` removing the key, and iteration being list order.
* `request.get_json(silent=True) or {}` is modelled as an
  `Option JObj` argument (`none` for an absent/unparseable body,
  coalesced to the empty object).
* `request.args.get(name, type=int)` is modelled as an `Option Int`
  (Flask yields `None` when the parameter is absent or unparseable).
* Python floats appearing as JSON numbers are modelled as rationals;
  no handler does float arithmetic beyond the `float(amount)` cast.
* The wall clock and ISO-8601 parsing (`datetime.utcnow().isoformat()`
  and `datetime.fromisoformat`) are library calls, modelled by an
  environment `Env`: `nowIso` is the isoformat of the current UTC
  instant, `parseOk s` tells whether `datetime.fromisoformat(s)`
  succeeds.
-/

/-- A JSON value, as decoded by Flask from a request body. -/
inductive Json where
  | jNull : Json
  | jBool (b : Bool) : Json
  | jInt (n : Int) : Json
  | jFloat (q : ℚ) : Json
  | jStr (s : String) : Json
  | jArr (items : List Json) : Json
  | jObj (fields : List (String × Json)) : Json
deriving Repr

/-- A JSON object body: list of fields (Python dict of a parsed body). -/
abbrev JObj := List (String × Json)

/-- Python `data.get(key)`: first field with the key, `None` if absent. -/
def JObj.get (d : JObj) (k : String) : Option Json :=
  (d.find? (fun p => p.1 == k)).map (·.2)

/-- Python truthiness (`not x` is true exactly on falsy `x`). -/
def Json.falsy : Json → Bool
  | .jNull => true
  | .jBool b => !b
  | .jInt n => n == 0
  | .jFloat q => q == 0
  | .jStr s => s.isEmpty
  | .jArr items => items.isEmpty
  | .jObj fields => fields.isEmpty

/-- Python `not x` on an optional field value (`None` is falsy). -/
def jOptFalsy : Option Json → Bool
  | none => true
  | some j => j.falsy

/-- Python `isinstance(x, str)` on an optional field value. -/
def jOptIsStr : Option Json → Bool
  | some (.jStr _) => true
  | _ => false

/-- Python `isinstance(x, int)` on an optional field value.  Booleans
pass because `bool` is a subclass of `int`. -/
def jOptIsInt : Option Json → Bool
  | some (.jInt _) => true
  | some (.jBool _) => true
  | _ => false

/-- Python `isinstance(x, (int, float))` on an optional field value. -/
def jOptIsNum : Option Json → Bool
  | some (.jInt _) => true
  | some (.jBool _) => true
  | some (.jFloat _) => true
  | _ => false

/-- The string content of a field known to be a string. -/
def jOptAsStr : Option Json → String
  | some (.jStr s) => s
  | _ => ""

/-- The integer value of a field that passed `jOptIsInt`
(`True == 1`, `False == 0` in Python). -/
def jOptAsInt : Option Json → Int
  | some (.jInt n) => n
  | some (.jBool b) => if b then 1 else 0
  | _ => 0

/-- Python `float(x)` for a value that passed `jOptIsNum`. -/
def jOptAsNum : Option Json → ℚ
  | some (.jInt n) => (n : ℚ)
  | some (.jBool b) => if b then 1 else 0
  | some (.jFloat q) => q
  | _ => 0

/-- A Python dict keyed by integer ids, in insertion order. -/
abbrev Dict (V : Type) := List (Int × V)

/-- Python `d.get(k)`. -/
def Dict.get {V : Type} (d : Dict V) (k : Int) : Option V :=
  (d.find? (fun p => p.1 == k)).map (·.2)

/-- Python `k in d`. -/
def Dict.hasKey {V : Type} (d : Dict V) (k : Int) : Bool :=
  (d.find? (fun p => p.1 == k)).isSome

/-- Python `d[k] = v`: update in place if the key exists, else append. -/
def Dict.insert {V : Type} (d : Dict V) (k : Int) (v : V) : Dict V :=
  if d.hasKey k then d.map (fun p => if p.1 == k then (k, v) else p)
  else d ++ [(k, v)]

/-- Python `d.pop(k, None)` (ignoring the returned value). -/
def Dict.erase {V : Type} (d : Dict V) (k : Int) : Dict V :=
  d.filter (fun p => p.1 != k)

/-- Python `list(d.values())`. -/
def Dict.values {V : Type} (d : Dict V) : List V := d.map (·.2)

/-- Python `list(d.keys())`. -/
def Dict.keysOf {V : Type} (d : Dict V) : List Int := d.map (·.1)

/-- Python `str.lower()`: lowercase each character of the string
(simple case mapping, which is what every handler comparison needs). -/
def pyLower (s : String) : String :=
  ⟨s.data.map Char.toLower⟩

/-- A stored user or category dict `{"id": ..., "name": ...}`. -/
structure NamedE where
  id : Int
  name : String
deriving Repr, DecidableEq

/-- A stored record dict
`{"id", "user_id", "category_id", "created_at", "amount"}`. -/
structure RecordE where
  id : Int
  user_id : Int
  category_id : Int
  created_at : String
  amount : ℚ
deriving Repr, DecidableEq

/-- The `_counters` dict of `app.py`. -/
structure Counters where
  user : Int
  category : Int
  record : Int
deriving Repr, DecidableEq

/-- The entity kinds of the `_counters` dict. -/
inductive Kind where
  | user
  | category
  | record
deriving Repr, DecidableEq

def Counters.get (c : Counters) : Kind → Int
  | .user => c.user
  | .category => c.category
  | .record => c.record

def Counters.bump (c : Counters) : Kind → Counters
  | .user => { c with user := c.user + 1 }
  | .category => { c with category := c.category + 1 }
  | .record => { c with record := c.record + 1 }

/-- The whole in-memory database: `_users`, `_categories`, `_records`
and `_counters` of `app.py`. -/
structure State where
  users : Dict NamedE
  categories : Dict NamedE
  records : Dict RecordE
  counters : Counters
deriving Repr, DecidableEq

/-- The module-load state: all tables empty, all counters zero. -/
def initState : State :=
  { users := [], categories := [], records := [],
    counters := { user := 0, category := 0, record := 0 } }

/-- The `_next_id(kind)` helper: increment the counter and return it. -/
def nextId (kind : Kind) (s : State) : Int × State :=
  let c := s.counters.bump kind
  (c.get kind, { s with counters := c })

/-- An HTTP response: either a JSON body with a status code, or an
error response `{"error": message}` with its status (from `_error`). -/
inductive Resp where
  | ok (body : Json) (status : Nat) : Resp
  | err (message : String) (status : Nat) : Resp
deriving Repr

def Resp.isErr : Resp → Bool
  | .ok _ _ => false
  | .err _ _ => true

/-- The environment of a `create_record` call: `nowIso` stands for
`datetime.utcnow().isoformat()` at call time, and `parseOk s` for
whether `datetime.fromisoformat(s)` succeeds. -/
structure Env where
  nowIso : String
  parseOk : String → Bool

/-- JSON shape of a stored user/category dict. -/
def namedJson (e : NamedE) : Json :=
  .jObj [("id", .jInt e.id), ("name", .jStr e.name)]

/-- JSON shape of a stored record dict. -/
def recJson (r : RecordE) : Json :=
  .jObj [("id", .jInt r.id), ("user_id", .jInt r.user_id),
         ("category_id", .jInt r.category_id),
         ("created_at", .jStr r.created_at), ("amount", .jFloat r.amount)]

-- ===== Handlers (one Lean def per route handler of app.py) =====

/-- Handler for `GET /health`. -/
def health (s : State) : Resp × State :=
  (.ok (.jObj [("status", .jStr "ok")]) 200, s)

/-- Handler for `GET /user/<int:user_id>`. -/
def get_user (s : State) (user_id : Int) : Resp × State :=
  match s.users.get user_id with
  | none => (.err s!"user {user_id} not found" 404, s)
  | some user => (.ok (namedJson user) 200, s)

/-- Handler for `DELETE /user/<int:user_id>`. -/
def delete_user (s : State) (user_id : Int) : Resp × State :=
  if !s.users.hasKey user_id then
    (.err s!"user {user_id} not found" 404, s)
  else
    let to_delete := (s.records.filter (fun p => p.2.user_id == user_id)).map (·.1)
    let records := to_delete.foldl (fun m rid => m.erase rid) s.records
    let users := s.users.erase user_id
    (.ok (.jObj [("status", .jStr "deleted"), ("user_id", .jInt user_id),
                 ("deleted_records", .jInt to_delete.length)]) 200,
     { s with users := users, records := records })

/-- Handler for `POST /user`. -/
def create_user (s : State) (body : Option JObj) : Resp × State :=
  let data := body.getD []
  let name := data.get "name"
  if jOptFalsy name || !jOptIsStr name then
    (.err "field \x27name\x27 (string) is required" 400, s)
  else
    let nm := jOptAsStr name
    let (user_id, s1) := nextId .user s
    let user : NamedE := { id := user_id, name := nm }
    (.ok (namedJson user) 201, { s1 with users := s1.users.insert user_id user })

/-- Handler for `GET /users`. -/
def list_users (s : State) : Resp × State :=
  (.ok (.jObj [("items", .jArr (s.users.values.map namedJson)),
               ("total", .jInt s.users.length)]) 200, s)

/-- Handler for `GET /category`. -/
def list_categories (s : State) : Resp × State :=
  (.ok (.jObj [("items", .jArr (s.categories.values.map namedJson)),
               ("total", .jInt s.categories.length)]) 200, s)

/-- Handler for `POST /category`. -/
def create_category (s : State) (body : Option JObj) : Resp × State :=
  let data := body.getD []
  let name := data.get "name"
  if jOptFalsy name || !jOptIsStr name then
    (.err "field \x27name\x27 (string) is required" 400, s)
  else
    let nm := jOptAsStr name
    if s.categories.values.any (fun c => pyLower c.name == pyLower nm) then
      (.err "category with this name already exists" 409, s)
    else
      let (cat_id, s1) := nextId .category s
      let category : NamedE := { id := cat_id, name := nm }
      (.ok (namedJson category) 201,
       { s1 with categories := s1.categories.insert cat_id category })

/-- Handler for `DELETE /category`: the id comes from `?id=` (an `Option Int`, as
Flask parses it) or, when that is `None`, from the JSON body. -/
def delete_category (s : State) (qid : Option Int) (body : Option JObj) : Resp × State :=
  let cat0 : Option Json :=
    match qid with
    | some n => some (.jInt n)
    | none => (body.getD []).get "id"
  if !jOptIsInt cat0 then
    (.err "category id is required (query param ?id= or JSON \x7b\x27id\x27: number\x7d)" 400, s)
  else
    let cat_id := jOptAsInt cat0
    if !s.categories.hasKey cat_id then
      (.err s!"category {cat_id} not found" 404, s)
    else
      let to_delete := (s.records.filter (fun p => p.2.category_id == cat_id)).map (·.1)
      let records := to_delete.foldl (fun m rid => m.erase rid) s.records
      let categories := s.categories.erase cat_id
      (.ok (.jObj [("status", .jStr "deleted"), ("category_id", .jInt cat_id),
                   ("deleted_records", .jInt to_delete.length)]) 200,
       { s with categories := categories, records := records })

/-- Handler for `GET /record/<int:record_id>`. -/
def get_record (s : State) (record_id : Int) : Resp × State :=
  match s.records.get record_id with
  | none => (.err s!"record {record_id} not found" 404, s)
  | some rec => (.ok (recJson rec) 200, s)

/-- Handler for `DELETE /record/<int:record_id>`. -/
def delete_record (s : State) (record_id : Int) : Resp × State :=
  if !s.records.hasKey record_id then
    (.err s!"record {record_id} not found" 404, s)
  else
    (.ok (.jObj [("status", .jStr "deleted"), ("record_id", .jInt record_id)]) 200,
     { s with records := s.records.erase record_id })

/-- Handler for `POST /record`.  `created_at.replace("Z", "+00:00")` raises
`AttributeError` on a non-string, caught by the bare `except`, so a
present non-string `created_at` is a 400. -/
def create_record (env : Env) (s : State) (body : Option JObj) : Resp × State :=
  let data := body.getD []
  let user_id := data.get "user_id"
  let category_id := data.get "category_id"
  let amount := data.get "amount"
  let created_at := data.get "created_at"
  if !jOptIsInt user_id then
    (.err "field \x27user_id\x27 (int) is required" 400, s)
  else if !jOptIsInt category_id then
    (.err "field \x27category_id\x27 (int) is required" 400, s)
  else if !jOptIsNum amount then
    (.err "field \x27amount\x27 (number) is required" 400, s)
  else
    let uid := jOptAsInt user_id
    let cid := jOptAsInt category_id
    if !s.users.hasKey uid then
      (.err s!"user {uid} not found" 404, s)
    else if !s.categories.hasKey cid then
      (.err s!"category {cid} not found" 404, s)
    else
      let ts? : Option String :=
        match created_at with
        | none => some (env.nowIso ++ "Z")
        | some .jNull => some (env.nowIso ++ "Z")
        | some (.jStr t) =>
            if env.parseOk (t.replace "Z" "+00:00") then some t else none
        | some _ => none
      match ts? with
      | none =>
          (.err "field \x27created_at\x27 must be ISO8601 string like 2025-10-13T10:00:00Z" 400, s)
      | some ts =>
          let (rec_id, s1) := nextId .record s
          let r : RecordE :=
            { id := rec_id, user_id := uid, category_id := cid,
              created_at := ts, amount := jOptAsNum amount }
          (.ok (recJson r) 201, { s1 with records := s1.records.insert rec_id r })

/-- Handler for `GET /record`: filters arrive as `Option Int` (Flask query parsing). -/
def list_records (s : State) (user_id category_id : Option Int) : Resp × State :=
  if user_id.isNone && category_id.isNone then
    (.err "at least one of query params \x27user_id\x27 or \x27category_id\x27 is required" 400, s)
  else
    let items := s.records.values
    let items := match user_id with
      | none => items
      | some u => items.filter (fun r => r.user_id == u)
    let items := match category_id with
      | none => items
      | some c => items.filter (fun r => r.category_id == c)
    (.ok (.jObj [("items", .jArr (items.map recJson)),
                 ("total", .jInt items.length)]) 200, s)

/-- Handler for `GET /`. -/
def index (s : State) : Resp × State :=
  (.ok (.jObj [("message", .jStr "Lab2 Expenses API"),
               ("try", .jArr [.jStr "/health", .jStr "/users", .jStr "/category",
                              .jStr "/record?user_id=1"])]) 200, s)

-- ===== Requests as a single operation type, for whole-system claims =====

/-- One HTTP request to any route of the app. -/
inductive Op where
  | health : Op
  | getUser (id : Int) : Op
  | deleteUser (id : Int) : Op
  | createUser (body : Option JObj) : Op
  | listUsers : Op
  | listCategories : Op
  | createCategory (body : Option JObj) : Op
  | deleteCategory (qid : Option Int) (body : Option JObj) : Op
  | getRecord (id : Int) : Op
  | deleteRecord (id : Int) : Op
  | createRecord (env : Env) (body : Option JObj) : Op
  | listRecords (uid cid : Option Int) : Op
  | index : Op

/-- Dispatch one request to its handler. -/
def step (s : State) : Op → Resp × State
  | .health => health s
  | .getUser i => get_user s i
  | .deleteUser i => delete_user s i
  | .createUser b => create_user s b
  | .listUsers => list_users s
  | .listCategories => list_categories s
  | .createCategory b => create_category s b
  | .deleteCategory q b => delete_category s q b
  | .getRecord i => get_record s i
  | .deleteRecord i => delete_record s i
  | .createRecord e b => create_record e s b
  | .listRecords u c => list_records s u c
  | .index => index s

/-- The state after serving a list of requests. -/
def runOps (s : State) (ops : List Op) : State :=
  ops.foldl (fun st op => (step st op).2) s

-- ===== Claim-side definitions used to state the specification claims =====

/-- Predicate of claim C5: a record matches every supplied filter, i.e. a supplied filter must
match, an absent filter matches everything. -/
def matchesFilters (user_id category_id : Option Int) (r : RecordE) : Bool :=
  (match user_id with
   | none => true
   | some u => r.user_id == u)
  &&
  (match category_id with
   | none => true
   | some c => r.category_id == c)

/-- Outcome demanded by the spec for `delete_category` once the target
id `cid` is resolved: 404 if unknown, else remove the category, remove
exactly the records whose `category_id` matches, report their count. -/
def deleteCategorySpecOutcome (s : State) (cid : Int) : Resp × State :=
  if s.categories.hasKey cid then
    (.ok (.jObj [("status", .jStr "deleted"), ("category_id", .jInt cid),
                 ("deleted_records",
                  .jInt (s.records.filter (fun p => p.2.category_id == cid)).length)]) 200,
     { s with categories := s.categories.erase cid,
              records := s.records.filter (fun p => !(p.2.category_id == cid)) })
  else
    (.err s!"category {cid} not found" 404, s)

/-- Well-formed table: keys pairwise distinct and bounded by the
counter that mints them.  Every state of the Python process satisfies
this (dict keys are unique, and keys are minted by `_next_id`). -/
def KeysOk {V : Type} (d : Dict V) (bound : Int) : Prop :=
  d.keysOf.Nodup ∧ ∀ p ∈ d, p.1 ≤ bound

/-- State well-formedness: each table's keys are distinct and bounded
by the corresponding counter. -/
def Wf (s : State) : Prop :=
  KeysOk s.users s.counters.user ∧ KeysOk s.categories s.counters.category ∧
    KeysOk s.records s.counters.record

instance (s : State) : Decidable (Wf s) := by
  unfold Wf KeysOk; infer_instance

/-- The invariant of claim C3: no two categories have names equal
after lowercasing. -/
def CatNamesUnique (s : State) : Prop :=
  s.categories.Pairwise (fun a b => pyLower a.2.name ≠ pyLower b.2.name)

instance (s : State) : Decidable (CatNamesUnique s) := by
  unfold CatNamesUnique; infer_instance

/-- The ids minted (in order) for entity kind `k` while serving `ops`
from state `s`: an id is minted exactly when the kind's counter moves,
and the minted id is the new counter value. -/
def mintsFrom (k : Kind) : State → List Op → List Int
  | _, [] => []
  | s, op :: ops =>
    let s' := (step s op).2
    if s'.counters.get k == s.counters.get k then mintsFrom k s' ops
    else s'.counters.get k :: mintsFrom k s' ops

/-- A small concrete state used by witnesses: one user, one category,
two records. -/
def demoState : State :=
  { users := [(1, { id := 1, name := "alice" })],
    categories := [(1, { id := 1, name := "Food" })],
    records := [(1, { id := 1, user_id := 1, category_id := 1,
                       created_at := "2025-01-01T00:00:00Z", amount := 5 }),
                (2, { id := 2, user_id := 2, category_id := 1,
                       created_at := "2025-01-02T00:00:00Z", amount := 7 })],
    counters := { user := 2, category := 1, record := 2 } }

/-- A concrete environment used by witnesses. -/
def demoEnv : Env :=
  { nowIso := "2025-10-13T10:00:00", parseOk := fun _ => true }

-- ===== Theorems: dictionary groundwork =====

theorem Dict.hasKey_iff {V : Type} {d : Dict V} {k : Int} :
    d.hasKey k = true ↔ ∃ p ∈ d, p.1 = k := by
  unfold Dict.hasKey
  rw [List.find?_isSome]
  constructor
  · rintro ⟨p, hp, hb⟩; exact ⟨p, hp, by simpa using hb⟩
  · rintro ⟨p, hp, hb⟩; exact ⟨p, hp, by simpa using hb⟩

theorem Dict.hasKey_eq_false_iff {V : Type} {d : Dict V} {k : Int} :
    d.hasKey k = false ↔ ∀ p ∈ d, p.1 ≠ k := by
  rw [← Bool.not_eq_true, Dict.hasKey_iff]
  constructor
  · intro h p hp hk; exact h ⟨p, hp, hk⟩
  · rintro h ⟨p, hp, hk⟩; exact h p hp hk

theorem Dict.get_erase_self {V : Type} (d : Dict V) (k : Int) :
    (d.erase k).get k = none := by
  unfold Dict.erase Dict.get
  rw [List.find?_eq_none.mpr]
  · rfl
  · intro x hx
    have hx2 := (List.mem_filter.mp hx).2
    simp only [bne_iff_ne, ne_eq] at hx2
    simp [hx2]

theorem Dict.get_erase_ne {V : Type} (d : Dict V) {j k : Int} (h : j ≠ k) :
    (d.erase k).get j = d.get j := by
  unfold Dict.erase Dict.get
  have hpred : (fun (a : Int × V) => decide ((a.1 != k) = true ∧ (a.1 == j) = true))
      = (fun (p : Int × V) => p.1 == j) := by
    funext a
    by_cases ha : a.1 = j
    · simp [ha, h]
    · simp [ha]
  rw [List.find?_filter, hpred]

theorem Dict.foldl_erase_eq_filter {V : Type} (ks : List Int) (d : Dict V) :
    ks.foldl (fun m rid => m.erase rid) d = d.filter (fun p => !ks.contains p.1) := by
  induction ks generalizing d with
  | nil => simp
  | cons k ks ih =>
    rw [List.foldl_cons, ih]
    unfold Dict.erase
    rw [List.filter_filter]
    apply List.filter_congr
    intro x _
    cases hks : ks.contains x.1 <;> cases hxk : x.1 == k <;>
      simp_all [List.contains_cons, bne]

theorem Dict.foldl_erase_filter_keys {V : Type} (d : Dict V) (P : Int × V → Bool)
    (hnd : d.keysOf.Nodup) :
    ((d.filter P).map (·.1)).foldl (fun m rid => m.erase rid) d
      = d.filter (fun p => !P p) := by
  rw [Dict.foldl_erase_eq_filter]
  apply List.filter_congr
  intro x hx
  congr 1
  by_cases hPx : P x = true
  · have hmem : x.1 ∈ (d.filter P).map (·.1) :=
      List.mem_map_of_mem _ (List.mem_filter.mpr ⟨hx, hPx⟩)
    simp [hPx, hmem]
  · have hmem : x.1 ∉ (d.filter P).map (·.1) := by
      intro hmem
      obtain ⟨y, hy, hyx⟩ := List.mem_map.mp hmem
      obtain ⟨hyd, hPy⟩ := List.mem_filter.mp hy
      have hxy : y = x := List.inj_on_of_nodup_map hnd hyd hx hyx
      rw [hxy] at hPy
      exact hPx hPy
    simp [hPx, hmem]

theorem Dict.insert_of_hasKey_eq_false {V : Type} {d : Dict V} {k : Int} (v : V)
    (h : d.hasKey k = false) : d.insert k v = d ++ [(k, v)] := by
  simp [Dict.insert, h]

theorem Dict.find?_map_replace {V : Type} (d : Dict V) (k : Int) (v : V)
    (h : d.hasKey k = true) :
    (d.map (fun p => if p.1 == k then (k, v) else p)).find? (fun p => p.1 == k)
      = some (k, v) := by
  induction d with
  | nil => simp [Dict.hasKey] at h
  | cons p d ih =>
    by_cases hp : p.1 = k
    · rw [List.map_cons, if_pos (by simpa using hp)]
      exact List.find?_cons_of_pos _ (by simp)
    · have h' : Dict.hasKey d k = true := by
        unfold Dict.hasKey at h ⊢
        rw [List.find?_cons_of_neg _ (by simpa using hp)] at h
        exact h
      rw [List.map_cons, if_neg (by simpa using hp)]
      rw [List.find?_cons_of_neg _ (by simpa using hp)]
      exact ih h'

theorem Dict.get_insert_self {V : Type} (d : Dict V) (k : Int) (v : V) :
    (d.insert k v).get k = some v := by
  unfold Dict.insert
  by_cases h : d.hasKey k = true
  · rw [if_pos h]
    unfold Dict.get
    rw [Dict.find?_map_replace d k v h]
    rfl
  · rw [if_neg h]
    unfold Dict.get
    rw [List.find?_append]
    have hnone : d.find? (fun p => p.1 == k) = none := by
      unfold Dict.hasKey at h
      exact Option.not_isSome_iff_eq_none.mp h
    rw [hnone, List.find?_cons_of_pos _ (by simp)]
    rfl

theorem pyLower_eq_empty_iff {s : String} : pyLower s = "" ↔ s = "" := by
  constructor
  · intro h
    have hd : s.data.map Char.toLower = [] := congrArg String.data h
    exact String.ext (List.map_eq_nil_iff.mp hd)
  · intro h; rw [h]; rfl

theorem Dict.erase_sublist {V : Type} (d : Dict V) (k : Int) :
    (d.erase k).Sublist d :=
  List.filter_sublist d

theorem Dict.foldl_erase_sublist {V : Type} (ks : List Int) (d : Dict V) :
    (ks.foldl (fun m rid => m.erase rid) d).Sublist d := by
  rw [Dict.foldl_erase_eq_filter]
  exact List.filter_sublist d

theorem KeysOk.sublist {V : Type} {d d' : Dict V} {b : Int}
    (hsub : d'.Sublist d) (h : KeysOk d b) : KeysOk d' b :=
  ⟨List.Nodup.sublist (List.Sublist.map _ hsub) h.1,
   fun p hp => h.2 p (hsub.subset hp)⟩

theorem KeysOk.hasKey_gt_eq_false {V : Type} {d : Dict V} {b k : Int}
    (h : KeysOk d b) (hk : b < k) : d.hasKey k = false :=
  Dict.hasKey_eq_false_iff.mpr
    (fun p hp hpk => absurd (h.2 p hp) (by rw [hpk]; exact not_le.mpr hk))

theorem KeysOk.insert_fresh {V : Type} {d : Dict V} {b : Int} (v : V)
    (h : KeysOk d b) : KeysOk (d.insert (b + 1) v) (b + 1) := by
  rw [Dict.insert_of_hasKey_eq_false v (h.hasKey_gt_eq_false (by omega))]
  constructor
  · unfold Dict.keysOf
    rw [List.map_append, List.nodup_append]
    refine ⟨h.1, List.nodup_singleton _, ?_⟩
    intro a ha hb'
    obtain ⟨p, hp, hpa⟩ := List.mem_map.mp ha
    have hpb := h.2 p hp
    have : a = b + 1 := by simpa using hb'
    omega
  · intro p hp
    rcases List.mem_append.mp hp with h1 | h2
    · exact le_trans (h.2 p h1) (by omega)
    · have hp2 : p = (b + 1, v) := by simpa using h2
      rw [hp2]

theorem Counters.get_bump_self (c : Counters) (k : Kind) :
    (c.bump k).get k = c.get k + 1 := by
  cases k <;> rfl

theorem Counters.get_bump_le (c : Counters) (k k' : Kind) :
    c.get k' ≤ (c.bump k).get k' := by
  cases k <;> cases k' <;> simp only [Counters.get, Counters.bump] <;> omega

-- State preservation of the read-only handlers

theorem health_state (s : State) : (health s).2 = s := rfl

theorem index_state (s : State) : (index s).2 = s := rfl

theorem list_users_state (s : State) : (list_users s).2 = s := rfl

theorem list_categories_state (s : State) : (list_categories s).2 = s := rfl

theorem get_user_state (s : State) (i : Int) : (get_user s i).2 = s := by
  unfold get_user; cases s.users.get i <;> rfl

theorem get_record_state (s : State) (i : Int) : (get_record s i).2 = s := by
  unfold get_record; cases s.records.get i <;> rfl

theorem list_records_state (s : State) (u c : Option Int) :
    (list_records s u c).2 = s := by
  unfold list_records; split <;> rfl

-- Shape of the state produced by each mutating handler

theorem create_user_cases (s : State) (b : Option JObj) :
    (create_user s b).2 = s ∨
    ∃ nm, (create_user s b).2 =
      { s with users := s.users.insert (s.counters.user + 1)
                          ⟨s.counters.user + 1, nm⟩,
               counters := s.counters.bump .user } := by
  simp only [create_user, nextId]
  split
  · left; rfl
  · right; exact ⟨_, rfl⟩

theorem create_category_cases (s : State) (b : Option JObj) :
    (create_category s b).2 = s ∨
    ∃ nm, (create_category s b).2 =
      { s with categories := s.categories.insert (s.counters.category + 1)
                               ⟨s.counters.category + 1, nm⟩,
               counters := s.counters.bump .category } := by
  simp only [create_category, nextId]
  split
  · left; rfl
  · split
    · left; rfl
    · right; exact ⟨_, rfl⟩

theorem create_record_cases (env : Env) (s : State) (b : Option JObj) :
    (create_record env s b).2 = s ∨
    ∃ v, (create_record env s b).2 =
      { s with records := s.records.insert (s.counters.record + 1) v,
               counters := s.counters.bump .record } := by
  simp only [create_record, nextId]
  repeat' split
  all_goals first
    | (left; rfl)
    | (right; exact ⟨_, rfl⟩)

theorem delete_user_cases (s : State) (uid : Int) :
    (delete_user s uid).2 = s ∨
    (delete_user s uid).2 =
      { s with users := s.users.erase uid,
               records := ((s.records.filter (fun p => p.2.user_id == uid)).map (·.1)).foldl
                            (fun m rid => m.erase rid) s.records } := by
  simp only [delete_user]
  split
  · left; rfl
  · right; rfl

theorem delete_category_cases (s : State) (q : Option Int) (b : Option JObj) :
    (delete_category s q b).2 = s ∨
    ∃ cid, (delete_category s q b).2 =
      { s with categories := s.categories.erase cid,
               records := ((s.records.filter (fun p => p.2.category_id == cid)).map (·.1)).foldl
                            (fun m rid => m.erase rid) s.records } := by
  simp only [delete_category]
  repeat' split
  all_goals first
    | (left; rfl)
    | (right; exact ⟨_, rfl⟩)

theorem delete_record_cases (s : State) (rid : Int) :
    (delete_record s rid).2 = s ∨
    (delete_record s rid).2 = { s with records := s.records.erase rid } := by
  simp only [delete_record]
  split
  · left; rfl
  · right; rfl

-- Well-formedness is preserved by every request

theorem wf_initState : Wf initState := by
  refine ⟨⟨List.nodup_nil, ?_⟩, ⟨List.nodup_nil, ?_⟩, ⟨List.nodup_nil, ?_⟩⟩ <;>
    intro p hp <;> cases hp

theorem wf_step {s : State} (op : Op) (h : Wf s) : Wf (step s op).2 := by
  obtain ⟨hu, hc, hr⟩ := h
  cases op with
  | health => rw [step, health_state]; exact ⟨hu, hc, hr⟩
  | index => rw [step, index_state]; exact ⟨hu, hc, hr⟩
  | listUsers => rw [step, list_users_state]; exact ⟨hu, hc, hr⟩
  | listCategories => rw [step, list_categories_state]; exact ⟨hu, hc, hr⟩
  | getUser i => rw [step, get_user_state]; exact ⟨hu, hc, hr⟩
  | getRecord i => rw [step, get_record_state]; exact ⟨hu, hc, hr⟩
  | listRecords u c => rw [step, list_records_state]; exact ⟨hu, hc, hr⟩
  | createUser b =>
    rw [step]
    rcases create_user_cases s b with hcase | ⟨nm, hcase⟩ <;> rw [hcase]
    · exact ⟨hu, hc, hr⟩
    · exact ⟨hu.insert_fresh _, hc, hr⟩
  | createCategory b =>
    rw [step]
    rcases create_category_cases s b with hcase | ⟨nm, hcase⟩ <;> rw [hcase]
    · exact ⟨hu, hc, hr⟩
    · exact ⟨hu, hc.insert_fresh _, hr⟩
  | createRecord e b =>
    rw [step]
    rcases create_record_cases e s b with hcase | ⟨v, hcase⟩ <;> rw [hcase]
    · exact ⟨hu, hc, hr⟩
    · exact ⟨hu, hc, hr.insert_fresh _⟩
  | deleteUser i =>
    rw [step]
    rcases delete_user_cases s i with hcase | hcase <;> rw [hcase]
    · exact ⟨hu, hc, hr⟩
    · exact ⟨KeysOk.sublist (Dict.erase_sublist _ _) hu, hc,
             KeysOk.sublist (Dict.foldl_erase_sublist _ _) hr⟩
  | deleteCategory q b =>
    rw [step]
    rcases delete_category_cases s q b with hcase | ⟨cid, hcase⟩ <;> rw [hcase]
    · exact ⟨hu, hc, hr⟩
    · exact ⟨hu, KeysOk.sublist (Dict.erase_sublist _ _) hc,
             KeysOk.sublist (Dict.foldl_erase_sublist _ _) hr⟩
  | deleteRecord i =>
    rw [step]
    rcases delete_record_cases s i with hcase | hcase <;> rw [hcase]
    · exact ⟨hu, hc, hr⟩
    · exact ⟨hu, hc, KeysOk.sublist (Dict.erase_sublist _ _) hr⟩

theorem wf_runOps (ops : List Op) : Wf (runOps initState ops) := by
  suffices hgen : ∀ (s : State), Wf s → Wf (runOps s ops) from hgen _ wf_initState
  induction ops with
  | nil => intro s hs; exact hs
  | cons op ops ih =>
    intro s hs
    exact ih _ (wf_step op hs)

-- Counters never decrease, and move only by minting

theorem step_counters_cases (s : State) (op : Op) :
    (step s op).2.counters = s.counters ∨
    ∃ k, (step s op).2.counters = s.counters.bump k := by
  cases op with
  | health => rw [step, health_state]; left; rfl
  | index => rw [step, index_state]; left; rfl
  | listUsers => rw [step, list_users_state]; left; rfl
  | listCategories => rw [step, list_categories_state]; left; rfl
  | getUser i => rw [step, get_user_state]; left; rfl
  | getRecord i => rw [step, get_record_state]; left; rfl
  | listRecords u c => rw [step, list_records_state]; left; rfl
  | createUser b =>
    rw [step]
    rcases create_user_cases s b with hcase | ⟨nm, hcase⟩ <;> rw [hcase]
    · left; rfl
    · right; exact ⟨.user, rfl⟩
  | createCategory b =>
    rw [step]
    rcases create_category_cases s b with hcase | ⟨nm, hcase⟩ <;> rw [hcase]
    · left; rfl
    · right; exact ⟨.category, rfl⟩
  | createRecord e b =>
    rw [step]
    rcases create_record_cases e s b with hcase | ⟨v, hcase⟩ <;> rw [hcase]
    · left; rfl
    · right; exact ⟨.record, rfl⟩
  | deleteUser i =>
    rw [step]
    rcases delete_user_cases s i with hcase | hcase <;> rw [hcase] <;> left <;> rfl
  | deleteCategory q b =>
    rw [step]
    rcases delete_category_cases s q b with hcase | ⟨cid, hcase⟩ <;> rw [hcase] <;>
      left <;> rfl
  | deleteRecord i =>
    rw [step]
    rcases delete_record_cases s i with hcase | hcase <;> rw [hcase] <;> left <;> rfl

theorem step_counters_mono (s : State) (op : Op) (k : Kind) :
    s.counters.get k ≤ (step s op).2.counters.get k := by
  rcases step_counters_cases s op with h | ⟨k', h⟩
  · rw [h]
  · rw [h]; exact Counters.get_bump_le _ _ _

theorem chain_mintsFrom (k : Kind) (ops : List Op) :
    ∀ s : State, List.Chain (fun a b => a < b) (s.counters.get k) (mintsFrom k s ops) := by
  induction ops with
  | nil => intro s; exact List.Chain.nil
  | cons op ops ih =>
    intro s
    rw [mintsFrom]
    by_cases h : ((step s op).2.counters.get k == s.counters.get k) = true
    · rw [if_pos h]
      have hchain := ih (step s op).2
      rwa [beq_iff_eq.mp h] at hchain
    · rw [if_neg h]
      refine List.Chain.cons ?_ (ih (step s op).2)
      have hle := step_counters_mono s op k
      have hne : (step s op).2.counters.get k ≠ s.counters.get k := by simpa using h
      omega

-- Response/state characterisation of create_record (used for C2)

theorem create_record_resp_cases (env : Env) (s : State) (b : Option JObj) :
    (∃ m c, create_record env s b = (Resp.err m c, s)) ∨
    (∃ v, create_record env s b =
      (Resp.ok (recJson v) 201,
       { s with records := s.records.insert (s.counters.record + 1) v,
                counters := s.counters.bump .record })) := by
  simp only [create_record, nextId]
  repeat' split
  all_goals first
    | (left; exact ⟨_, _, rfl⟩)
    | (right; exact ⟨_, rfl⟩)

/-- Claim C8: along any run of requests from the initial state, the ids
minted for each entity kind are strictly increasing (every successful
create mints an id strictly greater than every id previously minted
for that kind, so an id freed by a delete is never handed out again),
and the ids present in each table remain pairwise distinct. -/
theorem spec_C8 (k : Kind) (ops : List Op) :
    List.Pairwise (fun a b => a < b) ((0 : Int) :: mintsFrom k initState ops) ∧
    (runOps initState ops).users.keysOf.Nodup ∧
    (runOps initState ops).categories.keysOf.Nodup ∧
    (runOps initState ops).records.keysOf.Nodup := by
  refine ⟨?_, (wf_runOps ops).1.1, (wf_runOps ops).2.1.1, (wf_runOps ops).2.2.1⟩
  have hchain := chain_mintsFrom k ops initState
  have h0 : initState.counters.get k = (0 : Int) := by cases k <;> rfl
  rw [h0] at hchain
  exact List.chain_iff_pairwise.mp hchain

/-- Claim C2: whenever `create_record` fails (any 400 or 404 path), the state
is completely unchanged — no record is stored and no counter moves, so
the next successful create mints the same id it would have minted had
the failed call never happened. -/
theorem spec_C2 (env : Env) (s : State) (body : Option JObj)
    (h : (create_record env s body).1.isErr = true) :
    (create_record env s body).2 = s := by
  rcases create_record_resp_cases env s body with ⟨m, c, hcase⟩ | ⟨v, hcase⟩
  · rw [hcase]
  · rw [hcase] at h
    cases h

theorem spec_C2_witness :
    (create_record demoEnv demoState (some [("user_id", Json.jStr "oops")])).1.isErr = true ∧
    (create_record demoEnv demoState (some [("user_id", Json.jStr "oops")])).2 = demoState :=
  ⟨by decide, spec_C2 demoEnv demoState (some [("user_id", Json.jStr "oops")]) (by decide)⟩

/-- Claim C10: deleting an existing record removes exactly that record:
the response reports it, the record itself is gone, and every other
record, all users, all categories and all counters are unchanged. -/
theorem spec_C10 (s : State) (rid : Int) (h : s.records.hasKey rid = true) :
    (delete_record s rid).1 =
      Resp.ok (Json.jObj [("status", Json.jStr "deleted"), ("record_id", Json.jInt rid)]) 200 ∧
    (delete_record s rid).2.users = s.users ∧
    (delete_record s rid).2.categories = s.categories ∧
    (delete_record s rid).2.counters = s.counters ∧
    (delete_record s rid).2.records.get rid = none ∧
    ∀ k, k ≠ rid → (delete_record s rid).2.records.get k = s.records.get k := by
  have hne : (!s.records.hasKey rid) ≠ true := by rw [h]; decide
  unfold delete_record
  rw [if_neg hne]
  exact ⟨rfl, rfl, rfl, rfl, Dict.get_erase_self _ _, fun k hk => Dict.get_erase_ne _ hk⟩

theorem spec_C10_witness :
    (delete_record demoState 1).2.records.get 1 = none ∧
    (delete_record demoState 1).2.records.get 2 = demoState.records.get 2 ∧
    (delete_record demoState 1).2.counters = demoState.counters :=
  ⟨(spec_C10 demoState 1 (by decide)).2.2.2.2.1,
   (spec_C10 demoState 1 (by decide)).2.2.2.2.2 2 (by decide),
   (spec_C10 demoState 1 (by decide)).2.2.2.1⟩

/-- Claim C9: Python treats booleans as integers, so the `isinstance(x, int)`
validations accept JSON `true`: `create_record` with `user_id = true`
succeeds and stores a record whose `user_id` is the integer 1, and
`delete_category` with body `{"id": true}` deletes category 1. -/
theorem spec_C9 :
    ((create_record demoEnv demoState
        (some [("user_id", Json.jBool true), ("category_id", Json.jInt 1),
               ("amount", Json.jInt 5)])).1
      = Resp.ok (recJson { id := 3, user_id := 1, category_id := 1,
                           created_at := "2025-10-13T10:00:00Z", amount := 5 }) 201) ∧
    ((create_record demoEnv demoState
        (some [("user_id", Json.jBool true), ("category_id", Json.jInt 1),
               ("amount", Json.jInt 5)])).2.records.get 3
      = some { id := 3, user_id := 1, category_id := 1,
               created_at := "2025-10-13T10:00:00Z", amount := 5 }) ∧
    (delete_category demoState none (some [("id", Json.jBool true)])
      = (Resp.ok (Json.jObj [("status", Json.jStr "deleted"), ("category_id", Json.jInt 1),
                             ("deleted_records", Json.jInt 2)]) 200,
         { users := demoState.users, categories := [], records := [],
           counters := demoState.counters })) :=
  ⟨rfl, rfl, rfl⟩

/-- Claim C1: for a user id present in the table, `delete_user` removes that
user, removes exactly the records whose `user_id` matches, and reports
the number of records so removed; for an absent id it fails with 404
and changes nothing. -/
theorem spec_C1 (s : State) (uid : Int) (hwf : Wf s) :
    (s.users.hasKey uid = true →
      delete_user s uid =
        (Resp.ok (Json.jObj [("status", Json.jStr "deleted"), ("user_id", Json.jInt uid),
             ("deleted_records",
              Json.jInt (s.records.filter (fun p => p.2.user_id == uid)).length)]) 200,
         { s with users := s.users.erase uid,
                  records := s.records.filter (fun p => !(p.2.user_id == uid)) })) ∧
    (s.users.hasKey uid = false →
      delete_user s uid = (Resp.err s!"user {uid} not found" 404, s)) := by
  constructor
  · intro h
    have hne : (!s.users.hasKey uid) ≠ true := by rw [h]; decide
    unfold delete_user
    rw [if_neg hne]
    dsimp only
    rw [Dict.foldl_erase_filter_keys s.records _ hwf.2.2.1]
    simp only [List.length_map]
  · intro h
    have hpos : (!s.users.hasKey uid) = true := by rw [h]; decide
    unfold delete_user
    rw [if_pos hpos]

theorem spec_C1_witness :
    delete_user demoState 1 =
      (Resp.ok (Json.jObj [("status", Json.jStr "deleted"), ("user_id", Json.jInt 1),
           ("deleted_records",
            Json.jInt (demoState.records.filter (fun p => p.2.user_id == 1)).length)]) 200,
       { demoState with users := demoState.users.erase 1,
                        records := demoState.records.filter (fun p => !(p.2.user_id == 1)) }) :=
  (spec_C1 demoState 1 (by decide)).1 (by decide)

/-- Claim C7: `delete_category` resolves its target from the integer query
parameter when one is present (taking precedence over any body),
otherwise from the body's `id` field; with no integer id from either
source it fails 400; with an unknown id it fails 404; otherwise it
removes the category, removes exactly the records whose `category_id`
matches, and reports their count. -/
theorem spec_C7 (s : State) (qid : Option Int) (body : Option JObj) (hwf : Wf s) :
    (∀ n, qid = some n → delete_category s qid body = deleteCategorySpecOutcome s n) ∧
    (qid = none → ∀ j, (body.getD []).get "id" = some j → jOptIsInt (some j) = true →
       delete_category s qid body = deleteCategorySpecOutcome s (jOptAsInt (some j))) ∧
    (qid = none → jOptIsInt ((body.getD []).get "id") = false →
       delete_category s qid body =
         (Resp.err "category id is required (query param ?id= or JSON \x7b\x27id\x27: number\x7d)" 400, s)) := by
  have hcascade : ∀ cid : Int, s.categories.hasKey cid = true →
      (if (!s.categories.hasKey cid) = true then
        (Resp.err s!"category {cid} not found" 404, s)
      else
        (Resp.ok (Json.jObj [("status", Json.jStr "deleted"), ("category_id", Json.jInt cid),
             ("deleted_records",
              Json.jInt (((s.records.filter (fun p => p.2.category_id == cid)).map (·.1)).length))]) 200,
         { s with categories := s.categories.erase cid,
                  records := ((s.records.filter (fun p => p.2.category_id == cid)).map (·.1)).foldl
                               (fun m rid => m.erase rid) s.records }))
        = deleteCategorySpecOutcome s cid := by
    intro cid hk
    have hne : (!s.categories.hasKey cid) ≠ true := by rw [hk]; decide
    unfold deleteCategorySpecOutcome
    rw [if_neg hne, if_pos hk]
    rw [Dict.foldl_erase_filter_keys s.records _ hwf.2.2.1]
    simp only [List.length_map]
  have hmiss : ∀ cid : Int, s.categories.hasKey cid = false →
      ((Resp.err s!"category {cid} not found" 404, s) : Resp × State)
        = deleteCategorySpecOutcome s cid := by
    intro cid hk
    unfold deleteCategorySpecOutcome
    rw [if_neg (by rw [hk]; decide)]
  refine ⟨?_, ?_, ?_⟩
  · intro n hq
    subst hq
    simp only [delete_category, jOptIsInt, jOptAsInt, Bool.not_true]
    rw [if_neg Bool.false_ne_true]
    by_cases hk : s.categories.hasKey n = true
    · exact hcascade n hk
    · have hk' : s.categories.hasKey n = false := Bool.eq_false_iff.mpr hk
      rw [if_pos (by rw [hk']; decide)]
      exact hmiss n hk'
  · intro hq j hget hint
    subst hq
    simp only [delete_category, hget]
    rw [if_neg (by rw [hint]; decide)]
    by_cases hk : s.categories.hasKey (jOptAsInt (some j)) = true
    · exact hcascade _ hk
    · have hk' : s.categories.hasKey (jOptAsInt (some j)) = false := Bool.eq_false_iff.mpr hk
      rw [if_pos (by rw [hk']; decide)]
      exact hmiss _ hk'
  · intro hq hbad
    subst hq
    simp only [delete_category]
    rw [if_pos (by rw [hbad]; decide)]

theorem spec_C7_witness :
    delete_category demoState (some 1) none = deleteCategorySpecOutcome demoState 1 :=
  (spec_C7 demoState (some 1) none (by decide)).1 1 rfl

/-- Claim C5: `list_records` fails 400 when neither filter is supplied; when
at least one is supplied it returns exactly the records matching every
supplied filter (the conjunction when both are given), in table
iteration order, with `total` equal to the number of returned items. -/
theorem spec_C5 (s : State) (uid cid : Option Int) :
    ((uid.isNone && cid.isNone) = true →
      list_records s uid cid =
        (Resp.err "at least one of query params \x27user_id\x27 or \x27category_id\x27 is required" 400, s)) ∧
    ((uid.isNone && cid.isNone) = false →
      list_records s uid cid =
        (Resp.ok (Json.jObj
            [("items", Json.jArr ((s.records.values.filter (matchesFilters uid cid)).map recJson)),
             ("total", Json.jInt (s.records.values.filter (matchesFilters uid cid)).length)]) 200,
         s)) := by
  constructor
  · intro h
    unfold list_records
    rw [if_pos h]
  · intro h
    cases uid with
    | none =>
      cases cid with
      | none => exact absurd h (by decide)
      | some c =>
        have hl : s.records.values.filter (fun r => r.category_id == c)
            = s.records.values.filter (matchesFilters none (some c)) :=
          List.filter_congr (fun r _ => by simp [matchesFilters])
        simp only [list_records]
        rw [if_neg (by simp)]
        rw [hl]
    | some u =>
      cases cid with
      | none =>
        have hl : s.records.values.filter (fun r => r.user_id == u)
            = s.records.values.filter (matchesFilters (some u) none) :=
          List.filter_congr (fun r _ => by simp [matchesFilters])
        simp only [list_records]
        rw [if_neg (by simp)]
        rw [hl]
      | some c =>
        have hl : (s.records.values.filter (fun r => r.user_id == u)).filter
              (fun r => r.category_id == c)
            = s.records.values.filter (matchesFilters (some u) (some c)) := by
          rw [List.filter_filter]
          exact List.filter_congr (fun r _ => by
            simp only [matchesFilters]
            exact Bool.and_comm _ _)
        simp only [list_records]
        rw [if_neg (by simp)]
        rw [hl]

theorem spec_C5_witness :
    list_records demoState (some 1) (some 1) =
      (Resp.ok (Json.jObj
          [("items", Json.jArr ((demoState.records.values.filter
              (matchesFilters (some 1) (some 1))).map recJson)),
           ("total", Json.jInt (demoState.records.values.filter
              (matchesFilters (some 1) (some 1))).length)]) 200,
       demoState) :=
  (spec_C5 demoState (some 1) (some 1)).2 (by decide)

/-- Counterexample to claim C4: the empty string is a present, string-typed
`name`, yet `create_user` rejects it with 400 and stores nothing,
because `if not name` treats the empty string as missing. -/
theorem spec_C4_counterexample :
    create_user initState (some [("name", Json.jStr "")]) =
      (Resp.err "field \x27name\x27 (string) is required" 400, initState) := rfl

/-- Claim C4 (amended): `create_user` fails with 400 exactly when the `name`
field is missing, null, not a string, or the empty string; for every
non-empty string name it allocates the next user id (fresh: not
already in the table), stores the user, and returns it with 201. -/
theorem spec_C4_amended (s : State) (body : Option JObj) (hwf : Wf s) :
    ((∀ nm : String, (body.getD []).get "name" = some (Json.jStr nm) → nm = "") →
      create_user s body = (Resp.err "field \x27name\x27 (string) is required" 400, s)) ∧
    (∀ nm : String, (body.getD []).get "name" = some (Json.jStr nm) → nm ≠ "" →
      create_user s body =
        (Resp.ok (namedJson ⟨s.counters.user + 1, nm⟩) 201,
         { s with users := s.users ++ [(s.counters.user + 1, ⟨s.counters.user + 1, nm⟩)],
                  counters := s.counters.bump .user }) ∧
      s.users.hasKey (s.counters.user + 1) = false) := by
  constructor
  · intro hbad
    have hguard : (jOptFalsy ((body.getD []).get "name")
        || !jOptIsStr ((body.getD []).get "name")) = true := by
      cases hn : (body.getD []).get "name" with
      | none => rfl
      | some j =>
        cases j with
        | jStr nm =>
          have hnm : nm = "" := hbad nm (by rw [hn])
          subst hnm
          rfl
        | jNull => rfl
        | jBool b => simp [jOptFalsy, Json.falsy, jOptIsStr]
        | jInt n => simp [jOptFalsy, Json.falsy, jOptIsStr]
        | jFloat q => simp [jOptFalsy, Json.falsy, jOptIsStr]
        | jArr items => simp [jOptFalsy, Json.falsy, jOptIsStr]
        | jObj fields => simp [jOptFalsy, Json.falsy, jOptIsStr]
    simp only [create_user]
    rw [if_pos hguard]
  · intro nm hget hne
    have hfresh : s.users.hasKey (s.counters.user + 1) = false :=
      hwf.1.hasKey_gt_eq_false (by omega)
    have hguard : (jOptFalsy ((body.getD []).get "name")
        || !jOptIsStr ((body.getD []).get "name")) = false := by
      rw [hget]
      simp only [jOptFalsy, Json.falsy, jOptIsStr, Bool.not_true, Bool.or_false]
      rw [Bool.eq_false_iff]
      intro habs
      exact hne ((String.isEmpty_iff nm).mp habs)
    refine ⟨?_, hfresh⟩
    simp only [create_user, nextId]
    rw [if_neg (by rw [hguard]; decide), hget]
    simp only [Counters.get_bump_self, Counters.get, Counters.bump, jOptAsStr]
    rw [Dict.insert_of_hasKey_eq_false _ hfresh]

theorem spec_C4_amended_witness :
    create_user initState (some [("name", Json.jStr "bob")]) =
      (Resp.ok (namedJson ⟨1, "bob"⟩) 201,
       { initState with users := [(1, ⟨1, "bob"⟩)],
                        counters := initState.counters.bump .user }) ∧
    initState.users.hasKey 1 = false :=
  ((spec_C4_amended initState (some [("name", Json.jStr "bob")]) (by decide)).2
    "bob" rfl (by decide))

theorem create_category_catInv (s : State) (b : Option JObj) (hwf : Wf s)
    (h : CatNamesUnique s) : CatNamesUnique (create_category s b).2 := by
  simp only [create_category, nextId]
  split
  · exact h
  · split
    · exact h
    · rename_i hguard
      unfold CatNamesUnique
      simp only [Counters.get_bump_self, Counters.get, Counters.bump]
      rw [Dict.insert_of_hasKey_eq_false _ (hwf.2.1.hasKey_gt_eq_false (by omega))]
      refine List.pairwise_append.mpr ⟨h, by simp, ?_⟩
      intro a ha e he
      have he' : e = (s.counters.category + 1,
          ⟨s.counters.category + 1, jOptAsStr ((b.getD []).get "name")⟩) := by
        simpa using he
      subst he'
      intro heq
      apply hguard
      exact List.any_eq_true.mpr ⟨a.2, List.mem_map_of_mem _ ha, by simp [heq]⟩

/-- Claim C3: category-name uniqueness (ignoring case) holds in the initial
state, is preserved by every request, and creating a category whose
name lowercases to an existing one fails with 409, storing nothing. -/
theorem spec_C3 :
    CatNamesUnique initState ∧
    (∀ (s : State) (op : Op), Wf s → CatNamesUnique s → CatNamesUnique (step s op).2) ∧
    (∀ (s : State) (nm : String), CatNamesUnique s →
      (∀ c ∈ s.categories, c.2.name ≠ "") →
      (∃ c ∈ s.categories, pyLower c.2.name = pyLower nm) →
      create_category s (some [("name", Json.jStr nm)]) =
        (Resp.err "category with this name already exists" 409, s)) := by
  refine ⟨by decide, ?_, ?_⟩
  · intro s op hwf h
    cases op with
    | health => rw [step, health_state]; exact h
    | index => rw [step, index_state]; exact h
    | listUsers => rw [step, list_users_state]; exact h
    | listCategories => rw [step, list_categories_state]; exact h
    | getUser i => rw [step, get_user_state]; exact h
    | getRecord i => rw [step, get_record_state]; exact h
    | listRecords u c => rw [step, list_records_state]; exact h
    | createUser b =>
      rw [step]
      rcases create_user_cases s b with hc | ⟨nm, hc⟩ <;> rw [hc] <;> exact h
    | createCategory b =>
      rw [step]
      exact create_category_catInv s b hwf h
    | createRecord e b =>
      rw [step]
      rcases create_record_cases e s b with hc | ⟨v, hc⟩ <;> rw [hc] <;> exact h
    | deleteUser i =>
      rw [step]
      rcases delete_user_cases s i with hc | hc <;> rw [hc] <;> exact h
    | deleteCategory q b =>
      rw [step]
      rcases delete_category_cases s q b with hc | ⟨cid, hc⟩ <;> rw [hc]
      · exact h
      · exact List.Pairwise.sublist (Dict.erase_sublist _ _) h
    | deleteRecord i =>
      rw [step]
      rcases delete_record_cases s i with hc | hc <;> rw [hc] <;> exact h
  · intro s nm hinv hnames hclash
    obtain ⟨c, hc, hlow⟩ := hclash
    have hnm : nm ≠ "" := by
      intro h0
      subst h0
      have h1 : pyLower c.2.name = "" := by rw [hlow]; rfl
      exact hnames c hc (pyLower_eq_empty_iff.mp h1)
    have hget : JObj.get [("name", Json.jStr nm)] "name" = some (Json.jStr nm) := rfl
    simp only [create_category, Option.getD_some, hget, jOptAsStr]
    have hfalsy : (jOptFalsy (some (Json.jStr nm)) || !jOptIsStr (some (Json.jStr nm))) = false := by
      simp only [jOptFalsy, Json.falsy, jOptIsStr, Bool.not_true, Bool.or_false]
      rw [Bool.eq_false_iff]
      intro habs
      exact hnm ((String.isEmpty_iff nm).mp habs)
    rw [if_neg (by rw [hfalsy]; decide)]
    have hany : (s.categories.values.any fun c0 => pyLower c0.name == pyLower nm) = true :=
      List.any_eq_true.mpr ⟨c.2, List.mem_map_of_mem _ hc, by simp [hlow]⟩
    rw [if_pos hany]

theorem spec_C3_witness :
    create_category demoState (some [("name", Json.jStr "food")]) =
      (Resp.err "category with this name already exists" 409, demoState) :=
  spec_C3.2.2 demoState "food" (by decide) (by decide)
    ⟨(1, ⟨1, "Food"⟩), by decide, by decide⟩

/-- Claim C6: with an existing user and category, an explicit `created_at`
accepted by the parser is stored and echoed verbatim, and a subsequent
`get_record` returns it unchanged; with `created_at` omitted, the
stored value is `datetime.utcnow().isoformat()` with a literal "Z"
appended, so it ends with "Z" (its ISO-8601 parseability is the
datetime library's guarantee about `isoformat`, which the embedding
carries in `Env.nowIso`). -/
theorem spec_C6 (env : Env) (s : State) (uid cid amt : Int)
    (hu : s.users.hasKey uid = true) (hc : s.categories.hasKey cid = true) :
    (∀ t : String, env.parseOk (t.replace "Z" "+00:00") = true →
      create_record env s (some [("user_id", Json.jInt uid), ("category_id", Json.jInt cid),
          ("amount", Json.jInt amt), ("created_at", Json.jStr t)]) =
        (Resp.ok (recJson ⟨s.counters.record + 1, uid, cid, t, (amt : ℚ)⟩) 201,
         { s with records := s.records.insert (s.counters.record + 1)
                               ⟨s.counters.record + 1, uid, cid, t, (amt : ℚ)⟩,
                  counters := s.counters.bump .record }) ∧
      (get_record (create_record env s (some [("user_id", Json.jInt uid),
          ("category_id", Json.jInt cid), ("amount", Json.jInt amt),
          ("created_at", Json.jStr t)])).2 (s.counters.record + 1)).1
        = Resp.ok (recJson ⟨s.counters.record + 1, uid, cid, t, (amt : ℚ)⟩) 200) ∧
    (create_record env s (some [("user_id", Json.jInt uid), ("category_id", Json.jInt cid),
        ("amount", Json.jInt amt)]) =
      (Resp.ok (recJson ⟨s.counters.record + 1, uid, cid, env.nowIso ++ "Z", (amt : ℚ)⟩) 201,
       { s with records := s.records.insert (s.counters.record + 1)
                             ⟨s.counters.record + 1, uid, cid, env.nowIso ++ "Z", (amt : ℚ)⟩,
                counters := s.counters.bump .record }) ∧
     (∃ p, env.nowIso ++ "Z" = p ++ "Z")) := by
  constructor
  · intro t hp
    have h1 : JObj.get [("user_id", Json.jInt uid), ("category_id", Json.jInt cid),
        ("amount", Json.jInt amt), ("created_at", Json.jStr t)] "user_id"
        = some (Json.jInt uid) := rfl
    have h2 : JObj.get [("user_id", Json.jInt uid), ("category_id", Json.jInt cid),
        ("amount", Json.jInt amt), ("created_at", Json.jStr t)] "category_id"
        = some (Json.jInt cid) := rfl
    have h3 : JObj.get [("user_id", Json.jInt uid), ("category_id", Json.jInt cid),
        ("amount", Json.jInt amt), ("created_at", Json.jStr t)] "amount"
        = some (Json.jInt amt) := rfl
    have h4 : JObj.get [("user_id", Json.jInt uid), ("category_id", Json.jInt cid),
        ("amount", Json.jInt amt), ("created_at", Json.jStr t)] "created_at"
        = some (Json.jStr t) := rfl
    have hcr : create_record env s (some [("user_id", Json.jInt uid),
        ("category_id", Json.jInt cid), ("amount", Json.jInt amt),
        ("created_at", Json.jStr t)]) =
        (Resp.ok (recJson ⟨s.counters.record + 1, uid, cid, t, (amt : ℚ)⟩) 201,
         { s with records := s.records.insert (s.counters.record + 1)
                               ⟨s.counters.record + 1, uid, cid, t, (amt : ℚ)⟩,
                  counters := s.counters.bump .record }) := by
      simp only [create_record, nextId, Option.getD_some, h1, h2, h3, h4,
        jOptIsInt, jOptAsInt, jOptIsNum, jOptAsNum, Bool.not_true]
      rw [if_neg Bool.false_ne_true, if_neg Bool.false_ne_true, if_neg Bool.false_ne_true]
      rw [if_neg (by rw [hu]; decide), if_neg (by rw [hc]; decide)]
      rw [if_pos hp]
      simp only [Counters.get_bump_self, Counters.get, Counters.bump]
    refine ⟨hcr, ?_⟩
    rw [hcr]
    unfold get_record
    dsimp only
    rw [Dict.get_insert_self]
  · have h1 : JObj.get [("user_id", Json.jInt uid), ("category_id", Json.jInt cid),
        ("amount", Json.jInt amt)] "user_id" = some (Json.jInt uid) := rfl
    have h2 : JObj.get [("user_id", Json.jInt uid), ("category_id", Json.jInt cid),
        ("amount", Json.jInt amt)] "category_id" = some (Json.jInt cid) := rfl
    have h3 : JObj.get [("user_id", Json.jInt uid), ("category_id", Json.jInt cid),
        ("amount", Json.jInt amt)] "amount" = some (Json.jInt amt) := rfl
    have h4 : JObj.get [("user_id", Json.jInt uid), ("category_id", Json.jInt cid),
        ("amount", Json.jInt amt)] "created_at" = none := rfl
    refine ⟨?_, ⟨env.nowIso, rfl⟩⟩
    simp only [create_record, nextId, Option.getD_some, h1, h2, h3, h4,
      jOptIsInt, jOptAsInt, jOptIsNum, jOptAsNum, Bool.not_true]
    rw [if_neg Bool.false_ne_true, if_neg Bool.false_ne_true, if_neg Bool.false_ne_true]
    rw [if_neg (by rw [hu]; decide), if_neg (by rw [hc]; decide)]
    simp only [Counters.get_bump_self, Counters.get, Counters.bump]

theorem spec_C6_witness :
    create_record demoEnv demoState (some [("user_id", Json.jInt 1), ("category_id", Json.jInt 1),
        ("amount", Json.jInt 4), ("created_at", Json.jStr "2024-01-01T00:00:00Z")]) =
      (Resp.ok (recJson ⟨3, 1, 1, "2024-01-01T00:00:00Z", (4 : ℚ)⟩) 201,
       { demoState with records := demoState.records.insert 3
                          ⟨3, 1, 1, "2024-01-01T00:00:00Z", (4 : ℚ)⟩,
                        counters := demoState.counters.bump .record }) :=
  ((spec_C6 demoEnv demoState 1 1 4 (by decide) (by decide)).1
    "2024-01-01T00:00:00Z" (by decide)).1
